import Mathlib

/-!
Shallow embedding of `gpsgeomancy.py` (a GPS/NMEA "geomancy" script).

Modelling conventions:
* Python strings are Lean `String` / `List Char`; `ord` is `Char.toNat`.
* Python ints are Lean `Int` (naturals where the code only ever sees `Nat`).
* A Python function that can raise an exception is embedded as an
  `Option`-returning function; `none` models the exception escaping.
* `formatline` both returns `None` (checksum failure) and can raise
  (empty checksum payload), so it returns `Option (Option (List String))`:
  the outer layer is "no exception", the inner layer is the returned value.
* NMEA field lists mix ints and strings after classification
  (`satdict[prn].append("North")`), so classified records hold `PyVal`,
  a tagged union of the two kinds of Python values that occur.
* Python dicts are association lists with first-match lookup and
  replace-first-or-append insertion; this matches dict semantics for the
  lookups and updates the script performs (keys are compared with `==`,
  an `int` key never equals a `str` key in Python 2).
-/

namespace Gpsgeomancy

/-- A Python value as it occurs in the satellite records of the script:
either an integer or a string. -/
inductive PyVal where
  | int (v : Int)
  | str (v : String)
deriving DecidableEq, Repr

/-- Lexicographic (byte-wise) comparison of character lists, as Python 2
compares two `str` values. -/
def charsLt : List Char → List Char → Bool
  | [], [] => false
  | [], _ :: _ => true
  | _ :: _, [] => false
  | a :: as, b :: bs =>
    if a.toNat < b.toNat then true
    else if b.toNat < a.toNat then false
    else charsLt as bs

/-- Python 2 `<` on the two value kinds used by the script: ints compare
numerically, strings lexicographically, and in Python 2 every int compares
below every str (mixed-type comparison orders by type name). -/
def pyLt : PyVal → PyVal → Bool
  | PyVal.int a, PyVal.int b => a < b
  | PyVal.str a, PyVal.str b => charsLt a.data b.data
  | PyVal.int _, PyVal.str _ => true
  | PyVal.str _, PyVal.int _ => false

/-- Python 2 `>`. -/
def pyGt (a b : PyVal) : Bool := pyLt b a

section Dict

variable {κ ν : Type} [DecidableEq κ]

/-- Python dict lookup `d[k]`: first matching key, `none` models `KeyError`. -/
def dictLookup (k : κ) : List (κ × ν) → Option ν
  | [] => none
  | (k', v) :: rest => if k' = k then some v else dictLookup k rest

/-- Python dict assignment `d[k] = v`: replace the binding if the key is
present, otherwise add it. -/
def dictInsert (k : κ) (v : ν) : List (κ × ν) → List (κ × ν)
  | [] => [(k, v)]
  | (k', v') :: rest =>
    if k' = k then (k, v) :: rest else (k', v') :: dictInsert k v rest

end Dict

/-! ### `checksum` (source lines 157-168) -/

/-- One lowercase hexadecimal digit, as produced by Python `"%x"`. -/
def hexDigit (n : Nat) : Char :=
  if n < 10 then Char.ofNat (Char.toNat '0' + n)
  else Char.ofNat (Char.toNat 'a' + (n - 10))

/-- Hexadecimal digits, most significant first, by structural recursion on
a fuel argument (the value itself is always enough fuel, as each step at
least halves the value). -/
def hexCharsAux : Nat → Nat → List Char
  | 0, n => [hexDigit n]
  | fuel + 1, n =>
    if n < 16 then [hexDigit n]
    else hexCharsAux fuel (n / 16) ++ [hexDigit (n % 16)]

/-- Hexadecimal digits of `n`, most significant first (Python `"%x" % n`). -/
def hexChars (n : Nat) : List Char := hexCharsAux n n

/-- Python `"%02x" % n`: hexadecimal, zero-padded to width two. -/
def hex02 (n : Nat) : List Char :=
  let ds := hexChars n
  if ds.length = 1 then '0' :: ds else ds

/-- The XOR fold the `checksum` loop computes over the byte values. -/
def xorFold (data : List Char) : Nat :=
  data.foldl (fun a c => a ^^^ c.toNat) 0

/-- `checksum(data)` from the source: XOR of all character values, formatted
with `"%02x"` and upcased.  The local `hex_checksum` is only assigned inside
the `for` loop, so an empty `data` raises `UnboundLocalError` at the final
`return`; that exception is the `none` case. -/
def checksum (data : List Char) : Option String :=
  if data.isEmpty then none
  else some (String.mk ((hex02 (xorFold data)).map Char.toUpper))

/-! ### `formatline` (source lines 171-203) -/

/-- Index of the last occurrence of `c`, Python `line.rfind(c)`
(with `none` for the `-1` "not found" answer). -/
def rfindIdx (c : Char) : List Char → Option Nat
  | [] => none
  | x :: xs =>
    match rfindIdx c xs with
    | some i => some (i + 1)
    | none => if x = c then some 0 else none

/-- Drop one trailing carriage-return/line-feed pair, as the
`line.endswith('\r\n')` branch does. -/
def stripCRLF (cs : List Char) : List Char :=
  match cs.reverse with
  | '\n' :: '\r' :: rest => rest.reverse
  | _ => cs

/-- Python `line.split(',')`: splitting on every comma, keeping empty
pieces, with `[""]` for the empty string. -/
def splitComma : List Char → List (List Char)
  | [] => [[]]
  | c :: rest =>
    if c = ',' then [] :: splitComma rest
    else
      match splitComma rest with
      | g :: gs => (c :: g) :: gs
      | [] => [[c]]

/-- `formatline(line, verbose)` from the source.  Strips a trailing CRLF,
locates the last `*`, checksums `line[1:star]` against the characters after
the `*`, and on success drops two more characters (the talker letters) and
splits on commas.  Outer `none`: the `UnboundLocalError` from
`checksum('')` escapes.  Inner `none`: the function returns `None`
(missing or mismatched checksum).  The `verbose` prints are I/O only. -/
def formatline (line : String) : Option (Option (List String)) :=
  let cs := stripCRLF line.data
  match rfindIdx '*' cs with
  | none => some none
  | some star =>
    let check := cs.drop (star + 1)
    let payload := (cs.take star).drop 1
    match checksum payload with
    | none => none
    | some sum =>
      if sum ≠ String.mk check then some none
      else some (some ((splitComma (payload.drop 2)).map String.mk))

/-! ### `parseGSV` (source lines 206-232) and the line stream -/

/-- `gps.readline()` on a modelled stream of lines; an exhausted stream
yields the empty string, as a timed-out serial read does. -/
def readline : List String → String × List String
  | [] => ("", [])
  | l :: rest => (l, rest)

/-- Python `int(s)` on the numeral shapes NMEA fields can contain:
an optional minus sign followed by decimal digits (`none` models
`ValueError` on anything else, including the empty string). -/
def digitsToNat (ds : List Char) : Nat :=
  ds.foldl (fun a d => a * 10 + (d.toNat - Char.toNat '0')) 0

def pyInt? (s : String) : Option Int :=
  match s.data with
  | [] => none
  | '-' :: ds =>
    if ds ≠ [] ∧ ds.all Char.isDigit then some (-(Int.ofNat (digitsToNat ds)))
    else none
  | ds => if ds.all Char.isDigit then some (Int.ofNat (digitsToNat ds)) else none

/-- The `for sentence in range(num_of_sentences - 1)` loop of `parseGSV`:
read a line, decode it with `formatline`, and append the result - which is
the `None` placeholder when the decode failed.  An exception escaping
`formatline` aborts the whole parse (`none`). -/
def parseLoop :
    Nat → List (Option (List String)) → List String →
    Option (List (Option (List String)) × List String)
  | 0, acc, st => some (acc, st)
  | k + 1, acc, st =>
    let (raw, st') := readline st
    match formatline raw with
    | none => none
    | some dec => parseLoop k (acc ++ [dec]) st'

/-- `parseGSV(line, gps, verbose)`: start the group with the already-decoded
first sentence, read `int(line[1]) - 1` further lines, decoding each one.
`line[1]` missing is an `IndexError`, a non-numeric count a `ValueError`. -/
def parseGSV (line : List String) (st : List String) :
    Option (List (Option (List String)) × List String) :=
  match line.get? 1 with
  | none => none
  | some f1 =>
    match pyInt? f1 with
    | none => none
    | some n => parseLoop (n - 1).toNat [some line] st

/-! ### `formatgsvlist` (source lines 235-254) -/

/-- The per-field transform of the `formatgsvlist` inner loop:
`if item == '': item = 0` followed by `int(item)`. -/
def fieldVal (item : String) : Option Int :=
  if item = "" then some 0 else pyInt? item

/-- The inner `formatgsvlist` loop over the fields of one sentence:
convert each field with `fieldVal`, stopping at the first failure
(a `ValueError` from `int`). -/
def mapFields : List String → Option (List Int)
  | [] => some []
  | f :: rest =>
    match fieldVal f, mapFields rest with
    | some v, some vs => some (v :: vs)
    | _, _ => none

/-- One iteration of the outer `formatgsvlist` loop: drop the four header
fields (`sentence[4:]`) and convert the rest. -/
def formatSentence (sentence : List String) : Option (List Int) :=
  mapFields (sentence.drop 4)

/-- `formatgsvlist(gsvlist)`: flatten all sentences into one int list.
A `None` member of the group (`sentence[4:]` on `None`) is a `TypeError`,
and a non-numeric field a `ValueError`; both escape as `none`. -/
def formatgsvlist : List (Option (List String)) → Option (List Int)
  | [] => some []
  | os :: rest =>
    match os.bind formatSentence, formatgsvlist rest with
    | some vs, some acc => some (vs ++ acc)
    | _, _ => none

/-! ### `makesatdict` (source lines 257-269) -/

/-- The `for item in range(0, len(gsvlist), 4)` loop: consume the flat list
in chunks of four, keying the dict by the first element of each chunk.
A leftover of one to three fields hits `gsvlist[item + k]` out of range,
an `IndexError` (`none`). -/
def makesatGo : List Int → List (Int × List Int) → Option (List (Int × List Int))
  | [], d => some d
  | p :: e :: a :: s :: rest, d => makesatGo rest (dictInsert p [e, a, s] d)
  | _, _ => none

/-- `makesatdict(gsvlist)`: prn-keyed dict of `[ele, azi, snr]` lists. -/
def makesatdict (l : List Int) : Option (List (Int × List Int)) :=
  makesatGo l []

/-! ### `directionclassify` (source lines 272-314) -/

/-- The body of `directionclassify` for one record `[ele, azi, snr]`:
read `satdict[prn][1]`, then run the four independent `if` tests, each of
which appends a direction string and a deviation to the list. -/
def classifyRecord (rec : List Int) : Option (List PyVal) :=
  match rec.get? 1 with
  | none => none
  | some azi =>
  let base := rec.map PyVal.int
  let r1 :=
    if azi > 315 ∨ azi < 45 then
      base ++ [PyVal.str "North", PyVal.int (if azi > 180 then 360 - azi else azi)]
    else base
  let r2 :=
    if 45 < azi ∧ azi < 135 then
      r1 ++ [PyVal.str "East", PyVal.int ((azi - 90).natAbs : Nat)]
    else r1
  let r3 :=
    if 135 < azi ∧ azi < 225 then
      r2 ++ [PyVal.str "South", PyVal.int ((azi - 180).natAbs : Nat)]
    else r2
  let r4 :=
    if 225 < azi ∧ azi < 315 then
      r3 ++ [PyVal.str "West", PyVal.int ((azi - 270).natAbs : Nat)]
    else r3
  some r4

/-- `directionclassify(satdict)`: classify every record of the dict. -/
def directionclassify (sd : List (Int × List Int)) :
    Option (List (Int × List PyVal)) :=
  sd.mapM (fun pr => (classifyRecord pr.2).map (fun r => (pr.1, r)))

/-! ### `selectsats` (source lines 317-356) -/

/-- The chosen-record shape `[prn, ele, azi, snr, aziscore]`. -/
def mkChosen (prn : Int) (v0 v1 v2 score : PyVal) : List PyVal :=
  [PyVal.int prn, v0, v1, v2, score]

/-- One iteration of the `selectsats` loop for satellite `prn` with record
`rec`, updating the `chosenfour` dict.  Note two faithful details of the
source: an unclassified record (length 3) hits `satdict[prn][3]`, an
`IndexError`; and the deviation-tie branch reads `chosenfour[prn]` - the
dict is keyed by direction strings, so the int key `prn` is a `KeyError`. -/
def selectBody (prn : Int) (rec : List PyVal) (cf : List (PyVal × List PyVal)) :
    Option (List (PyVal × List PyVal)) :=
  match rec.get? 3, rec.get? 4 with
  | some direction, some aziscore =>
    (match dictLookup direction cf with
    | some cur =>
      (match cur.get? 4 with
      | some cur4 =>
        if pyLt aziscore cur4 then
          match rec.get? 0, rec.get? 1, rec.get? 2 with
          | some v0, some v1, some v2 =>
            some (dictInsert direction (mkChosen prn v0 v1 v2 aziscore) cf)
          | _, _, _ => none
        else if aziscore = cur4 then
          match rec.get? 2, dictLookup (PyVal.int prn) cf with
          | some sn, some other =>
            (match other.get? 3 with
            | some ot3 =>
              if pyGt sn ot3 then
                match rec.get? 0, rec.get? 1, rec.get? 2 with
                | some v0, some v1, some v2 =>
                  some (dictInsert direction (mkChosen prn v0 v1 v2 aziscore) cf)
                | _, _, _ => none
              else some cf
            | none => none)
          | _, _ => none
        else some cf
      | none => none)
    | none =>
      match rec.get? 0, rec.get? 1, rec.get? 2 with
      | some v0, some v1, some v2 =>
        some (dictInsert direction (mkChosen prn v0 v1 v2 aziscore) cf)
      | _, _, _ => none)
  | _, _ => none

/-- The `for prn in satdict` loop of `selectsats`. -/
def selectGo :
    List (Int × List PyVal) → List (PyVal × List PyVal) →
    Option (List (PyVal × List PyVal))
  | [], cf => some cf
  | (prn, rec) :: rest, cf =>
    match selectBody prn rec cf with
    | none => none
    | some cf2 => selectGo rest cf2

/-- `selectsats(satdict)`: reduce the classified table to at most one
chosen record per direction. -/
def selectsats (sd : List (Int × List PyVal)) :
    Option (List (PyVal × List PyVal)) :=
  selectGo sd []

/-! ### `getsatellites` (source lines 359-387) -/

/-- Does the raw line start with `$GPGSV`? -/
def listStartsWith : List Char → List Char → Bool
  | [], _ => true
  | _ :: _, [] => false
  | p :: ps, c :: cs => p = c && listStartsWith ps cs

/-- `getsatellites(gps, verbose)` over a modelled finite stream.  Faithful
detail: when `formatline` returns `None` for a `$GPGSV` line the source
executes `break`, leaving the `while` loop with `gsvlist == []` and falling
off the end of the function - it returns `None` (outer `none` here), it does
not wait for the next report.  An exhausted stream means the loop would
block on timed-out reads forever; that is also `none`. -/
def getsatellites : List String → Option (List Int)
  | [] => none
  | l :: rest =>
    if listStartsWith "$GPGSV".data l.data then
      match formatline l with
      | none => none
      | some none => none
      | some (some fields) =>
        match parseGSV fields rest with
        | none => none
        | some (gsv, _) => formatgsvlist gsv
    else getsatellites rest

/-! ### `inttodot` and `preparemothers` (source lines 390-450) -/

/-- `inttodot(integer)`: two marks for an even value (zero included), one
mark plus an alignment space for an odd one.  Lean `Int.emod` agrees with
Python `%` on negative values (both give a non-negative remainder). -/
def inttodot (n : Int) : String :=
  if n % 2 = 0 then "**" else "* "

/-- `inttodot` applied to a dict value: the arithmetic `% 2` is only
defined when the value is an int (`none` models the `TypeError` that a
string operand would raise). -/
def inttodotP : PyVal → Option String
  | PyVal.int n => some (inttodot n)
  | PyVal.str _ => none

def spacer : String := "      "

/-- The `for d in ["West", "North", "East", "South"]` loop of
`preparemothers`, growing the four attribute rows.  `chosenfour[d]` on a
missing direction is a `KeyError`. -/
def mothersLoop (cf : List (PyVal × List PyVal)) :
    List String → String × String × String × String →
    Option (String × String × String × String)
  | [], acc => some acc
  | d :: ds, (h, n, b, f) =>
    match dictLookup (PyVal.str d) cf with
    | none => none
    | some r =>
      match r.get? 0, r.get? 1, r.get? 2, r.get? 3 with
      | some x0, some x1, some x2, some x3 =>
        (match inttodotP x0, inttodotP x1, inttodotP x2, inttodotP x3 with
        | some s0, some s1, some s2, some s3 =>
          mothersLoop cf ds
            (h ++ s0 ++ spacer, n ++ s1 ++ spacer, b ++ s2 ++ spacer, f ++ s3 ++ spacer)
        | _, _, _, _ => none)
      | _, _, _, _ => none

/-- `preparemothers(chosenfour)`: the fixed-layout mothers diagram. -/
def preparemothers (cf : List (PyVal × List PyVal)) : Option String :=
  match mothersLoop cf ["West", "North", "East", "South"]
      ("head" ++ spacer, "neck" ++ spacer, "body" ++ spacer, "feet" ++ spacer) with
  | none => none
  | some (h, n, b, f) =>
    some ("       Earth    Water    Air     Fire\n        IV       III     II       I\n"
    ++ h ++ "\n" ++ n ++ "\n" ++ b ++ "\n" ++ f ++ "\n"
    ++ "       West     North    East    South")


/-! ## Claim theorems -/

/-- C1: a satellite whose azimuth is exactly 45 falls through all four
classification tests, so `directionclassify` appends neither a direction
nor a deviation to its record - but `selectsats` then reads index 3 of that
three-element record, an `IndexError`, so it does NOT complete and select
among the remaining classified satellites: it aborts (modelled `none`). -/
theorem boundary_azimuth_aborts_selectsats :
    directionclassify [(1, [10, 45, 20]), (2, [20, 100, 30])] =
      some [(1, [PyVal.int 10, PyVal.int 45, PyVal.int 20]),
            (2, [PyVal.int 20, PyVal.int 100, PyVal.int 30, PyVal.str "East", PyVal.int 10])]
    ∧ selectsats [(1, [PyVal.int 10, PyVal.int 45, PyVal.int 20]),
            (2, [PyVal.int 20, PyVal.int 100, PyVal.int 30, PyVal.str "East", PyVal.int 10])] =
        none := by
  constructor <;> decide

/-- C2: two satellites of the same direction with exactly equal deviation
(azimuths 80 and 100, both 10 degrees from East).  On the tie the source
evaluates `chosenfour[prn][3]`, but `chosenfour` is keyed by direction
strings, so the int key `prn` raises `KeyError`: `selectsats` aborts
(`none`) instead of keeping the higher-SNR satellite. -/
theorem snr_tie_break_raises_keyerror :
    directionclassify [(1, [10, 80, 20]), (2, [30, 100, 25])] =
      some [(1, [PyVal.int 10, PyVal.int 80, PyVal.int 20, PyVal.str "East", PyVal.int 10]),
            (2, [PyVal.int 30, PyVal.int 100, PyVal.int 25, PyVal.str "East", PyVal.int 10])]
    ∧ selectsats
        [(1, [PyVal.int 10, PyVal.int 80, PyVal.int 20, PyVal.str "East", PyVal.int 10]),
         (2, [PyVal.int 30, PyVal.int 100, PyVal.int 25, PyVal.str "East", PyVal.int 10])] =
        none := by
  constructor <;> decide

/-- C3: in a three-sentence satellite-view report whose second sentence has
a corrupted checksum, `parseGSV` does record a `None` placeholder at that
position and completes the group - but the downstream `formatgsvlist`
then evaluates `sentence[4:]` on that `None`, a `TypeError`, so flattening
does NOT complete and no satellite records are produced. -/
theorem gsv_placeholder_kills_flattening :
    parseGSV
        ["GSV", "3", "1", "12", "01", "80", "283", "20", "32", "77", "227", "18",
         "11", "72", "175", "19", "20", "42", "247", "25"]
        ["$GPGSV,3,2,12,14,35,055,15,19,23,174,28,17,19,318,26,28,15,281,15*00",
         "$GPGSV,3,3,12,22,11,068,17,23,05,194,,31,04,113,,36,,,*4A"] =
      some ([some ["GSV", "3", "1", "12", "01", "80", "283", "20", "32", "77", "227",
                   "18", "11", "72", "175", "19", "20", "42", "247", "25"],
             none,
             some ["GSV", "3", "3", "12", "22", "11", "068", "17", "23", "05", "194",
                   "", "31", "04", "113", "", "36", "", "", ""]], [])
    ∧ formatgsvlist
        [some ["GSV", "3", "1", "12", "01", "80", "283", "20", "32", "77", "227",
               "18", "11", "72", "175", "19", "20", "42", "247", "25"],
         none,
         some ["GSV", "3", "3", "12", "22", "11", "068", "17", "23", "05", "194",
               "", "31", "04", "113", "", "36", "", "", ""]] = none := by
  constructor <;> decide

/-- C4: when the first `$GPGSV` line fails its checksum, `getsatellites`
executes `break`, leaves its `while` loop and returns `None`: the single
corrupted line makes the function give up (`none`), although the very same
well-formed report later in the stream decodes fine on its own. -/
theorem corrupted_gsv_line_makes_getsatellites_give_up :
    getsatellites ["$GPGSV,1,1,04,01,40,083,46*00",
                   "$GPGSV,1,1,04,01,40,083,46*41"] = none
    ∧ getsatellites ["$GPGSV,1,1,04,01,40,083,46*41"] = some [1, 40, 83, 46] := by
  constructor <;> decide

/-- C5: `formatline` is not total: on a line whose checksum payload between
the start delimiter and the `*` marker is empty (here `"$*00"`), it calls
`checksum('')`, whose local `hex_checksum` is never assigned, and the
resulting `UnboundLocalError` escapes - the outer `none` - rather than a
field list or a returned `None`. -/
theorem formatline_raises_on_empty_payload :
    formatline "$*00" = none := by
  decide

/-- C8: whenever `directionclassify` assigns a direction to a record whose
azimuth lies in 0..359, the deviation it appends lies in [0, 45]. -/
theorem classified_deviation_in_bounds (ele azi snr : Int) (dir : String) (dev : Int)
    (h0 : 0 ≤ azi) (h1 : azi ≤ 359)
    (h : classifyRecord [ele, azi, snr] =
      some [PyVal.int ele, PyVal.int azi, PyVal.int snr, PyVal.str dir, PyVal.int dev]) :
    0 ≤ dev ∧ dev ≤ 45 := by
  simp only [classifyRecord, List.get?, Option.some_bind, List.map] at h
  split_ifs at h <;> simp [-Int.natCast_natAbs] at h <;> omega

/-- C8 witness: azimuth 100 is classified East with deviation 10. -/
theorem classified_deviation_in_bounds_witness : (0 : Int) ≤ 10 ∧ (10 : Int) ≤ 45 :=
  classified_deviation_in_bounds 5 100 20 "East" 10 (by decide) (by decide) (by decide)

/-! ### Checksum corruption detection (C7) -/

/-- `Char.toNat` is injective. -/
theorem charToNat_inj (a b : Char) (h : a.toNat = b.toNat) : a = b :=
  Char.eq_of_val_eq (UInt32.eq_of_toBitVec_eq (BitVec.eq_of_toNat_eq h))

theorem foldl_xor_shift (l : List Char) :
    ∀ a : Nat, l.foldl (fun x c => x ^^^ c.toNat) a = a ^^^ xorFold l := by
  induction l with
  | nil => intro a; simp [xorFold]
  | cons c cs ih =>
    intro a
    simp only [xorFold, List.foldl_cons]
    rw [ih, ih, Nat.zero_xor, Nat.xor_assoc]

theorem xorFold_cons (c : Char) (l : List Char) :
    xorFold (c :: l) = c.toNat ^^^ xorFold l := by
  simp only [xorFold, List.foldl_cons]
  rw [foldl_xor_shift, Nat.zero_xor]
  rfl

theorem xor_cancel_aba (a b : Nat) : (a ^^^ b) ^^^ a = b := by
  rw [Nat.xor_comm a b, Nat.xor_assoc, Nat.xor_self, Nat.xor_zero]

theorem xorFold_set (l : List Char) :
    ∀ (i : Nat) (c : Char) (h : i < l.length),
      xorFold (l.set i c) = (xorFold l ^^^ (l.get ⟨i, h⟩).toNat) ^^^ c.toNat := by
  induction l with
  | nil => intro i c h; simp at h
  | cons x xs ih =>
    intro i c h
    cases i with
    | zero =>
      simp only [List.set, List.get]
      rw [xorFold_cons, xorFold_cons, xor_cancel_aba, Nat.xor_comm]
    | succ j =>
      have hj : j < xs.length := by simpa using h
      simp only [List.set, List.get]
      rw [xorFold_cons, xorFold_cons, ih j c hj, ← Nat.xor_assoc, ← Nat.xor_assoc]

theorem xorFold_lt (l : List Char) (h : ∀ x ∈ l, x.toNat < 256) : xorFold l < 256 := by
  induction l with
  | nil => simp [xorFold]
  | cons c cs ih =>
    rw [xorFold_cons]
    have h1 : c.toNat < 2 ^ 8 := by have := h c (by simp); omega
    have h2 : xorFold cs < 2 ^ 8 := by
      have := ih (fun x hx => h x (by simp [hx])); omega
    have := Nat.xor_lt_two_pow h1 h2
    omega

theorem hexCharsAux_small (fuel n : Nat) (h : n < 16) :
    hexCharsAux fuel n = [hexDigit n] := by
  cases fuel with
  | zero => rfl
  | succ m => simp [hexCharsAux, h]

theorem hex02_lt256 (n : Nat) (h : n < 256) :
    hex02 n = [hexDigit (n / 16), hexDigit (n % 16)] := by
  by_cases h16 : n < 16
  · have hd : n / 16 = 0 := Nat.div_eq_of_lt h16
    have hm : n % 16 = n := Nat.mod_eq_of_lt h16
    rw [hex02, hexChars, hexCharsAux_small _ _ h16, hd, hm]
    simp [show hexDigit 0 = '0' from by decide]
  · obtain ⟨m, rfl⟩ : ∃ m, n = m + 1 := ⟨n - 1, by omega⟩
    rw [hex02, hexChars]
    simp only [hexCharsAux, if_neg h16]
    rw [hexCharsAux_small m ((m + 1) / 16) (by omega)]
    simp

theorem hexDigitUpper_inj : ∀ x y : Fin 16,
    Char.toUpper (hexDigit x.val) = Char.toUpper (hexDigit y.val) → x = y := by
  decide

theorem hexString_inj (a b : Nat) (ha : a < 256) (hb : b < 256)
    (h : (hex02 a).map Char.toUpper = (hex02 b).map Char.toUpper) : a = b := by
  rw [hex02_lt256 a ha, hex02_lt256 b hb] at h
  simp only [List.map_cons, List.map_nil, List.cons.injEq, and_true] at h
  obtain ⟨h1, h2⟩ := h
  have d1 := hexDigitUpper_inj ⟨a / 16, by omega⟩ ⟨b / 16, by omega⟩ h1
  have d2 := hexDigitUpper_inj ⟨a % 16, by omega⟩ ⟨b % 16, by omega⟩ h2
  have e1 : a / 16 = b / 16 := congrArg Fin.val d1
  have e2 : a % 16 = b % 16 := congrArg Fin.val d2
  omega

/-- C7: corrupting any single byte of a non-empty checksum payload changes
the two-uppercase-hex-digit string `checksum` returns. -/
theorem checksum_changes_on_byte_corruption (l : List Char) (i : Nat) (c : Char)
    (hi : i < l.length) (hl : ∀ x ∈ l, x.toNat < 256) (hc : c.toNat < 256)
    (hne : c ≠ l.get ⟨i, hi⟩) :
    checksum (l.set i c) ≠ checksum l := by
  intro heq
  have hln : ¬ l.isEmpty = true := by
    cases l with
    | nil => simp at hi
    | cons a as => simp
  have hsn : ¬ (l.set i c).isEmpty = true := by
    cases l with
    | nil => simp at hi
    | cons a as => cases i <;> simp [List.set]
  rw [checksum, checksum, if_neg hsn, if_neg hln] at heq
  have hsome := Option.some.inj heq
  have hlst : (hex02 (xorFold (l.set i c))).map Char.toUpper =
      (hex02 (xorFold l)).map Char.toUpper := by
    injection hsome
  have hXl : xorFold l < 256 := xorFold_lt l hl
  have hXs : xorFold (l.set i c) < 256 := by
    refine xorFold_lt _ (fun x hx => ?_)
    rcases List.mem_or_eq_of_mem_set hx with hmem | hrfl
    · exact hl x hmem
    · exact hrfl ▸ hc
  have hX : xorFold (l.set i c) = xorFold l := hexString_inj _ _ hXs hXl hlst
  rw [xorFold_set l i c hi] at hX
  have h0 : xorFold l ^^^ ((l.get ⟨i, hi⟩).toNat ^^^ c.toNat) = xorFold l ^^^ 0 := by
    rw [← Nat.xor_assoc, hX, Nat.xor_zero]
  have hz : (l.get ⟨i, hi⟩).toNat ^^^ c.toNat = 0 := Nat.xor_right_inj.mp h0
  have heqn : (l.get ⟨i, hi⟩).toNat = c.toNat := Nat.xor_eq_zero.mp hz
  exact hne (charToNat_inj _ _ heqn.symm)

/-- C7 witness: replacing the first byte of `"GP"` by `'X'` changes the
checksum. -/
theorem checksum_changes_on_byte_corruption_witness :
    checksum (['G', 'P'].set 0 'X') ≠ checksum ['G', 'P'] :=
  checksum_changes_on_byte_corruption ['G', 'P'] 0 'X'
    (by decide) (by decide) (by decide) (by decide)

/-! ### Selection keeps the minimum deviation (C6)

For a fully classified table the `selectsats` loop is, per direction, a
running minimum on the deviation; the proof factors the loop through a
small state machine over structured records. -/

/-- A fully classified satellite, the structured view of a record
`[ele, azi, snr, dir, dev]` keyed by `prn`. -/
structure CSat where
  prn : Int
  ele : Int
  azi : Int
  snr : Int
  dir : String
  dev : Int
deriving DecidableEq

/-- The classified record of `c`, as `directionclassify` stores it. -/
def encRec (c : CSat) : List PyVal :=
  [PyVal.int c.ele, PyVal.int c.azi, PyVal.int c.snr, PyVal.str c.dir, PyVal.int c.dev]

/-- The chosen record `[prn, ele, azi, snr, dev]` that `selectsats` stores. -/
def chosenOf (c : CSat) : List PyVal :=
  [PyVal.int c.prn, PyVal.int c.ele, PyVal.int c.azi, PyVal.int c.snr, PyVal.int c.dev]

/-- Structured view of the `chosenfour` dict. -/
def cfEncode (st : List (String × CSat)) : List (PyVal × List PyVal) :=
  st.map (fun p => (PyVal.str p.1, chosenOf p.2))

theorem cfEncode_nil : cfEncode [] = [] := rfl

theorem cfEncode_cons (p : String × CSat) (rest : List (String × CSat)) :
    cfEncode (p :: rest) = (PyVal.str p.1, chosenOf p.2) :: cfEncode rest := rfl

/-- One `selectsats` iteration on the structured state: keep the
lower-deviation satellite per direction. -/
def bestStep (st : List (String × CSat)) (c : CSat) : List (String × CSat) :=
  match dictLookup c.dir st with
  | none => dictInsert c.dir c st
  | some cur => if c.dev < cur.dev then dictInsert c.dir c st else st

/-- The whole loop on the structured state. -/
def runBest (st : List (String × CSat)) (l : List CSat) : List (String × CSat) :=
  l.foldl bestStep st

section DictLemmas

variable {κ ν : Type} [DecidableEq κ]

theorem dictLookup_insert_self (k : κ) (v : ν) (d : List (κ × ν)) :
    dictLookup k (dictInsert k v d) = some v := by
  induction d with
  | nil => simp [dictInsert, dictLookup]
  | cons p rest ih =>
    obtain ⟨k2, v2⟩ := p
    by_cases hk : k2 = k <;> simp [dictInsert, dictLookup, hk, ih]

theorem dictLookup_insert_other (k k2 : κ) (hne : k ≠ k2) (v : ν) (d : List (κ × ν)) :
    dictLookup k2 (dictInsert k v d) = dictLookup k2 d := by
  have hne2 : ¬ (k2 = k) := fun h => hne h.symm
  induction d with
  | nil => simp [dictInsert, dictLookup, hne]
  | cons p rest ih =>
    obtain ⟨k3, v3⟩ := p
    by_cases hk : k3 = k
    · subst hk
      simp [dictInsert, dictLookup, hne]
    · simp [dictInsert, dictLookup, hk, ih]

end DictLemmas

theorem dictLookup_cfEncode (st : List (String × CSat)) (d : String) :
    dictLookup (PyVal.str d) (cfEncode st) = (dictLookup d st).map chosenOf := by
  induction st with
  | nil => rfl
  | cons p rest ih =>
    obtain ⟨d2, c2⟩ := p
    show dictLookup (PyVal.str d) ((PyVal.str d2, chosenOf c2) :: cfEncode rest)
        = Option.map chosenOf (dictLookup d ((d2, c2) :: rest))
    by_cases hd : d2 = d
    · subst hd
      simp [dictLookup]
    · simp only [dictLookup]
      rw [if_neg (fun h => hd (PyVal.str.inj h)), if_neg hd, ih]

theorem dictInsert_cfEncode (st : List (String × CSat)) (d : String) (c : CSat) :
    dictInsert (PyVal.str d) (chosenOf c) (cfEncode st) = cfEncode (dictInsert d c st) := by
  induction st with
  | nil => rfl
  | cons p rest ih =>
    obtain ⟨d2, c2⟩ := p
    show dictInsert (PyVal.str d) (chosenOf c) ((PyVal.str d2, chosenOf c2) :: cfEncode rest)
        = cfEncode (dictInsert d c ((d2, c2) :: rest))
    by_cases hd : d2 = d
    · subst hd
      simp [dictInsert, cfEncode_cons]
    · simp only [dictInsert]
      rw [if_neg (fun h => hd (PyVal.str.inj h)), if_neg hd, cfEncode_cons, ih]

theorem chosenOf_getFour (c : CSat) : getElem? (chosenOf c) 4 = some (PyVal.int c.dev) := rfl

theorem encRec_getZero (c : CSat) : getElem? (encRec c) 0 = some (PyVal.int c.ele) := rfl

theorem encRec_getOne (c : CSat) : getElem? (encRec c) 1 = some (PyVal.int c.azi) := rfl

theorem encRec_getTwo (c : CSat) : getElem? (encRec c) 2 = some (PyVal.int c.snr) := rfl

theorem encRec_getThree (c : CSat) : getElem? (encRec c) 3 = some (PyVal.str c.dir) := rfl

theorem encRec_getFour (c : CSat) : getElem? (encRec c) 4 = some (PyVal.int c.dev) := rfl

theorem mkChosen_chosenOf (c : CSat) :
    mkChosen c.prn (PyVal.int c.ele) (PyVal.int c.azi) (PyVal.int c.snr) (PyVal.int c.dev)
      = chosenOf c := rfl

theorem selectBody_encode (c : CSat) (st : List (String × CSat))
    (hnt : ∀ cur, dictLookup c.dir st = some cur → cur.dev ≠ c.dev) :
    selectBody c.prn (encRec c) (cfEncode st) = some (cfEncode (bestStep st c)) := by
  simp only [selectBody, bestStep, List.get?_eq_getElem?, encRec_getZero, encRec_getOne,
    encRec_getTwo, encRec_getThree, encRec_getFour]
  rw [dictLookup_cfEncode]
  cases hcur : dictLookup c.dir st with
  | none =>
    simp [mkChosen_chosenOf, dictInsert_cfEncode]
  | some cur =>
    have hne : ¬ (PyVal.int c.dev = PyVal.int cur.dev) := by
      simp only [PyVal.int.injEq]
      exact fun he => hnt cur hcur he.symm
    by_cases hlt : c.dev < cur.dev
    · simp [chosenOf_getFour, pyLt, hlt, mkChosen_chosenOf, dictInsert_cfEncode]
    · simp [chosenOf_getFour, pyLt, hlt, hne]

theorem bestStep_of_none (st : List (String × CSat)) (c : CSat)
    (h : dictLookup c.dir st = none) : bestStep st c = dictInsert c.dir c st := by
  unfold bestStep
  rw [h]

theorem bestStep_of_lt (st : List (String × CSat)) (c cur : CSat)
    (h : dictLookup c.dir st = some cur) (hlt : c.dev < cur.dev) :
    bestStep st c = dictInsert c.dir c st := by
  unfold bestStep
  rw [h]
  show (if c.dev < cur.dev then dictInsert c.dir c st else st) = _
  rw [if_pos hlt]

theorem bestStep_of_ge (st : List (String × CSat)) (c cur : CSat)
    (h : dictLookup c.dir st = some cur) (hge : ¬ c.dev < cur.dev) :
    bestStep st c = st := by
  unfold bestStep
  rw [h]
  show (if c.dev < cur.dev then dictInsert c.dir c st else st) = _
  rw [if_neg hge]

theorem dictLookup_bestStep_other (st : List (String × CSat)) (c : CSat) (d : String)
    (hd : c.dir ≠ d) : dictLookup d (bestStep st c) = dictLookup d st := by
  cases hl0 : dictLookup c.dir st with
  | none => rw [bestStep_of_none st c hl0, dictLookup_insert_other c.dir d hd]
  | some cur =>
    by_cases hlt : c.dev < cur.dev
    · rw [bestStep_of_lt st c cur hl0 hlt, dictLookup_insert_other c.dir d hd]
    · rw [bestStep_of_ge st c cur hl0 hlt]

theorem selectGo_encode (l : List CSat) :
    ∀ st : List (String × CSat),
      l.Pairwise (fun a b => a.dir = b.dir → a.dev ≠ b.dev) →
      (∀ d cur, dictLookup d st = some cur → ∀ c ∈ l, c.dir = d → c.dev ≠ cur.dev) →
      selectGo (l.map (fun c => (c.prn, encRec c))) (cfEncode st) =
        some (cfEncode (runBest st l)) := by
  induction l with
  | nil =>
    intro st _ _
    simp [selectGo, runBest]
  | cons c rest ih =>
    intro st hp hcross
    rw [List.pairwise_cons] at hp
    obtain ⟨hhead, htail⟩ := hp
    have hnt : ∀ cur, dictLookup c.dir st = some cur → cur.dev ≠ c.dev := by
      intro cur hcur he
      exact hcross c.dir cur hcur c (by simp) rfl he.symm
    simp only [List.map_cons, selectGo, selectBody_encode c st hnt]
    refine ih (bestStep st c) htail ?_
    intro d cur hcur c2 hc2 hd2
    by_cases hd : c.dir = d
    · subst hd
      cases hl0 : dictLookup c.dir st with
      | none =>
        rw [bestStep_of_none st c hl0, dictLookup_insert_self] at hcur
        have he : c = cur := by injection hcur
        subst he
        exact fun he2 => hhead c2 hc2 hd2.symm he2.symm
      | some cur0 =>
        by_cases hlt : c.dev < cur0.dev
        · rw [bestStep_of_lt st c cur0 hl0 hlt, dictLookup_insert_self] at hcur
          have he : c = cur := by injection hcur
          subst he
          exact fun he2 => hhead c2 hc2 hd2.symm he2.symm
        · rw [bestStep_of_ge st c cur0 hl0 hlt] at hcur
          exact hcross c.dir cur hcur c2 (by simp [hc2]) hd2
    · rw [dictLookup_bestStep_other st c d hd] at hcur
      exact hcross d cur hcur c2 (by simp [hc2]) hd2

theorem dictLookup_runBest_of_none (l : List CSat) :
    ∀ (st : List (String × CSat)) (d : String),
      (∀ c ∈ l, c.dir ≠ d) → dictLookup d st = none →
      dictLookup d (runBest st l) = none := by
  induction l with
  | nil => intro st d _ h0; simpa [runBest] using h0
  | cons c rest ih =>
    intro st d h h0
    have hcd : c.dir ≠ d := h c (by simp)
    simp only [runBest, List.foldl_cons]
    refine ih (bestStep st c) d (fun c2 hc2 => h c2 (by simp [hc2])) ?_
    rw [dictLookup_bestStep_other st c d hcd]
    exact h0

theorem dictLookup_runBest_keep (l : List CSat) :
    ∀ (st : List (String × CSat)) (d : String) (c : CSat),
      dictLookup d st = some c →
      (∀ c2 ∈ l, c2.dir = d → ¬ (c2.dev < c.dev)) →
      dictLookup d (runBest st l) = some c := by
  induction l with
  | nil => intro st d c hc _; simpa [runBest] using hc
  | cons c0 rest ih =>
    intro st d c hc hgd
    simp only [runBest, List.foldl_cons]
    refine ih (bestStep st c0) d c ?_ (fun c2 hc2 => hgd c2 (by simp [hc2]))
    by_cases hd : c0.dir = d
    · have hl0 : dictLookup c0.dir st = some c := by rw [hd]; exact hc
      rw [bestStep_of_ge st c0 c hl0 (hgd c0 (by simp) hd)]
      exact hc
    · rw [dictLookup_bestStep_other st c0 d hd]
      exact hc

theorem dictLookup_runBest_min (l : List CSat) :
    ∀ (st : List (String × CSat)) (c : CSat),
      c ∈ l →
      (∀ c2 ∈ l, c2 ≠ c → c2.dir = c.dir → c.dev < c2.dev) →
      (∀ cur, dictLookup c.dir st = some cur → c.dev < cur.dev) →
      dictLookup c.dir (runBest st l) = some c := by
  induction l with
  | nil => intro st c hmem; exact absurd hmem (by simp)
  | cons c0 rest ih =>
    intro st c hmem hmin hst
    simp only [runBest, List.foldl_cons]
    by_cases hceq : c0 = c
    · subst hceq
      have hlk : dictLookup c0.dir (bestStep st c0) = some c0 := by
        cases hl0 : dictLookup c0.dir st with
        | none => rw [bestStep_of_none st c0 hl0, dictLookup_insert_self]
        | some cur => rw [bestStep_of_lt st c0 cur hl0 (hst cur hl0), dictLookup_insert_self]
      refine dictLookup_runBest_keep rest (bestStep st c0) c0.dir c0 hlk ?_
      intro c2 hc2 hd2
      by_cases he : c2 = c0
      · subst he; omega
      · have := hmin c2 (by simp [hc2]) he hd2
        omega
    · have hmem2 : c ∈ rest := by
        rcases List.mem_cons.mp hmem with he | hm
        · exact absurd he.symm hceq
        · exact hm
      refine ih (bestStep st c0) c hmem2 (fun c2 hc2 => hmin c2 (by simp [hc2])) ?_
      intro cur hcur
      by_cases hd : c0.dir = c.dir
      · cases hl0 : dictLookup c0.dir st with
        | none =>
          rw [bestStep_of_none st c0 hl0, hd, dictLookup_insert_self] at hcur
          have he : c0 = cur := by injection hcur
          subst he
          exact hmin c0 (by simp) hceq hd
        | some cur0 =>
          by_cases hlt : c0.dev < cur0.dev
          · rw [bestStep_of_lt st c0 cur0 hl0 hlt, hd, dictLookup_insert_self] at hcur
            have he : c0 = cur := by injection hcur
            subst he
            exact hmin c0 (by simp) hceq hd
          · rw [bestStep_of_ge st c0 cur0 hl0 hlt] at hcur
            exact hst cur hcur
      · rw [dictLookup_bestStep_other st c0 c.dir hd] at hcur
        exact hst cur hcur

theorem dictLookup_runBest_isSome (l : List CSat) :
    ∀ (st : List (String × CSat)) (d : String),
      ((dictLookup d st).isSome ∨ ∃ c ∈ l, c.dir = d) →
      (dictLookup d (runBest st l)).isSome := by
  induction l with
  | nil =>
    intro st d h
    rcases h with hs | ⟨c, hc, _⟩
    · simpa [runBest] using hs
    · exact absurd hc (by simp)
  | cons c0 rest ih =>
    intro st d h
    simp only [runBest, List.foldl_cons]
    have hself : (dictLookup c0.dir (bestStep st c0)).isSome := by
      cases hl0 : dictLookup c0.dir st with
      | none => rw [bestStep_of_none st c0 hl0, dictLookup_insert_self]; rfl
      | some cur =>
        by_cases hlt : c0.dev < cur.dev
        · rw [bestStep_of_lt st c0 cur hl0 hlt, dictLookup_insert_self]; rfl
        · rw [bestStep_of_ge st c0 cur hl0 hlt, hl0]; rfl
    have hstep : (dictLookup d st).isSome → (dictLookup d (bestStep st c0)).isSome := by
      intro hs
      by_cases hd : c0.dir = d
      · subst hd; exact hself
      · rw [dictLookup_bestStep_other st c0 d hd]; exact hs
    rcases h with hs | ⟨c, hc, hd⟩
    · exact ih (bestStep st c0) d (Or.inl (hstep hs))
    · rcases List.mem_cons.mp hc with he | hm
      · subst he
        subst hd
        exact ih (bestStep st c) c.dir (Or.inl hself)
      · exact ih (bestStep st c0) d (Or.inr ⟨c, hm, hd⟩)

/-- C6: on a fully classified table whose per-direction deviations are
pairwise distinct, `selectsats` completes and yields, for every direction
with at least one satellite, exactly the record of the satellite with the
lowest deviation of that direction, and no entry for a direction with no
classified satellite. -/
theorem selectsats_keeps_min_deviation (l : List CSat)
    (hp : l.Pairwise (fun a b => a.dir = b.dir → a.dev ≠ b.dev)) :
    ∃ cf, selectsats (l.map (fun c => (c.prn, encRec c))) = some cf
      ∧ (∀ d : String, (∀ c ∈ l, c.dir ≠ d) → dictLookup (PyVal.str d) cf = none)
      ∧ (∀ c ∈ l, (dictLookup (PyVal.str c.dir) cf).isSome)
      ∧ (∀ c ∈ l, (∀ c2 ∈ l, c2 ≠ c → c2.dir = c.dir → c.dev < c2.dev) →
          dictLookup (PyVal.str c.dir) cf = some (chosenOf c)) := by
  refine ⟨cfEncode (runBest [] l), ?_, ?_, ?_, ?_⟩
  · have h := selectGo_encode l [] hp (by intro d cur hcur; simp [dictLookup] at hcur)
    simpa [selectsats, cfEncode_nil] using h
  · intro d hd
    rw [dictLookup_cfEncode, dictLookup_runBest_of_none l [] d hd (by simp [dictLookup])]
    rfl
  · intro c hc
    rw [dictLookup_cfEncode]
    have h := dictLookup_runBest_isSome l [] c.dir (Or.inr ⟨c, hc, rfl⟩)
    simpa using h
  · intro c hc hmin
    rw [dictLookup_cfEncode, dictLookup_runBest_min l [] c hc hmin (by simp [dictLookup])]
    rfl

/-- A concrete classified table: one North satellite and two East
satellites with distinct deviations. -/
def sampleCSats : List CSat :=
  [⟨1, 10, 10, 20, "North", 10⟩, ⟨2, 20, 100, 30, "East", 10⟩, ⟨3, 30, 95, 25, "East", 5⟩]

/-- C6 witness: on the sample table the selection completes and obeys the
minimum-deviation characterisation. -/
theorem selectsats_keeps_min_deviation_witness :
    ∃ cf, selectsats (sampleCSats.map (fun c => (c.prn, encRec c))) = some cf
      ∧ (∀ d : String, (∀ c ∈ sampleCSats, c.dir ≠ d) → dictLookup (PyVal.str d) cf = none)
      ∧ (∀ c ∈ sampleCSats, (dictLookup (PyVal.str c.dir) cf).isSome)
      ∧ (∀ c ∈ sampleCSats, (∀ c2 ∈ sampleCSats, c2 ≠ c → c2.dir = c.dir → c.dev < c2.dev) →
          dictLookup (PyVal.str c.dir) cf = some (chosenOf c)) :=
  selectsats_keeps_min_deviation sampleCSats (by decide)

/-! ### Flattening with zero substitution and the satellite table (C9) -/

/-- The flat field sequence of a list of satellite tuples
`(prn, ele, azi, snr)`. -/
def recsFlat (recs : List (Int × Int × Int × Int)) : List Int :=
  (recs.map (fun r => [r.1, r.2.1, r.2.2.1, r.2.2.2])).flatten

/-- The dict that the `makesatdict` loop builds, as a fold of inserts. -/
def insFold (d : List (Int × List Int)) (recs : List (Int × Int × Int × Int)) :
    List (Int × List Int) :=
  recs.foldl (fun d r => dictInsert r.1 [r.2.1, r.2.2.1, r.2.2.2] d) d

theorem makesatGo_recsFlat (recs : List (Int × Int × Int × Int)) :
    ∀ d, makesatGo (recsFlat recs) d = some (insFold d recs) := by
  induction recs with
  | nil => intro d; rfl
  | cons r rest ih =>
    intro d
    obtain ⟨p, e, a, s⟩ := r
    show makesatGo (p :: e :: a :: s :: recsFlat rest) d = _
    exact ih (dictInsert p [e, a, s] d)

theorem dictLookup_insFold_of_not_mem (recs : List (Int × Int × Int × Int)) :
    ∀ (d : List (Int × List Int)) (p : Int), (∀ r ∈ recs, r.1 ≠ p) →
      dictLookup p (insFold d recs) = dictLookup p d := by
  induction recs with
  | nil => intro d p _; rfl
  | cons r rest ih =>
    intro d p h
    show dictLookup p (insFold (dictInsert r.1 [r.2.1, r.2.2.1, r.2.2.2] d) rest) = _
    rw [ih _ p (fun r2 h2 => h r2 (by simp [h2]))]
    exact dictLookup_insert_other r.1 p (h r (by simp)) _ _

theorem dictLookup_insFold_mem (recs : List (Int × Int × Int × Int)) :
    ∀ d : List (Int × List Int), recs.Pairwise (fun a b => a.1 ≠ b.1) →
      ∀ r ∈ recs, dictLookup r.1 (insFold d recs) = some [r.2.1, r.2.2.1, r.2.2.2] := by
  induction recs with
  | nil => intro d _ r hr; exact absurd hr (by simp)
  | cons r0 rest ih =>
    intro d hp r hr
    rw [List.pairwise_cons] at hp
    obtain ⟨hhead, htail⟩ := hp
    rcases List.mem_cons.mp hr with he | hm
    · subst he
      show dictLookup r.1 (insFold (dictInsert r.1 [r.2.1, r.2.2.1, r.2.2.2] d) rest) = _
      rw [dictLookup_insFold_of_not_mem rest _ r.1 (fun r2 h2 => Ne.symm (hhead r2 h2))]
      exact dictLookup_insert_self r.1 _ d
    · show dictLookup r.1 (insFold (dictInsert r0.1 [r0.2.1, r0.2.2.1, r0.2.2.2] d) rest) = _
      exact ih _ htail r hm

theorem dictInsert_length_of_fresh {κ ν : Type} [DecidableEq κ]
    (k : κ) (v : ν) (d : List (κ × ν)) (h : dictLookup k d = none) :
    (dictInsert k v d).length = d.length + 1 := by
  induction d with
  | nil => rfl
  | cons p rest ih =>
    obtain ⟨k2, v2⟩ := p
    by_cases hk : k2 = k
    · exfalso
      rw [dictLookup, if_pos hk] at h
      cases h
    · rw [dictLookup, if_neg hk] at h
      simp [dictInsert, hk, ih h]

theorem insFold_length (recs : List (Int × Int × Int × Int)) :
    ∀ d : List (Int × List Int), recs.Pairwise (fun a b => a.1 ≠ b.1) →
      (∀ r ∈ recs, dictLookup r.1 d = none) →
      (insFold d recs).length = d.length + recs.length := by
  induction recs with
  | nil => intro d _ _; simp [insFold]
  | cons r0 rest ih =>
    intro d hp h0
    rw [List.pairwise_cons] at hp
    obtain ⟨hhead, htail⟩ := hp
    show (insFold (dictInsert r0.1 [r0.2.1, r0.2.2.1, r0.2.2.2] d) rest).length = _
    rw [ih _ htail ?_]
    · rw [dictInsert_length_of_fresh _ _ _ (h0 r0 (by simp))]
      simp
      omega
    · intro r hr
      rw [dictLookup_insert_other r0.1 r.1 (hhead r hr)]
      exact h0 r (by simp [hr])

theorem mapFields_of_forall₂ (fs : List String) (vs : List Int)
    (h : List.Forall₂ (fun f v => fieldVal f = some v) fs vs) :
    mapFields fs = some vs := by
  induction h with
  | nil => rfl
  | cons h1 htail ih => simp [mapFields, h1, ih]

theorem formatgsvlist_forall₂ :
    ∀ (sents : List (List String × List String)) (valss : List (List Int)),
      List.Forall₂ (fun ps vs =>
        List.Forall₂ (fun f v => fieldVal f = some v) ps.2 vs) sents valss →
      (∀ ps ∈ sents, ps.1.length = 4) →
      formatgsvlist (sents.map (fun ps => some (ps.1 ++ ps.2))) = some valss.flatten := by
  intro sents
  induction sents with
  | nil =>
    intro valss hv _
    cases hv
    rfl
  | cons ps rest ih =>
    intro valss hv hh
    cases hv with
    | @cons _ vs _ valss2 h1 htail =>
      have hf : (some (ps.1 ++ ps.2)).bind formatSentence = some vs := by
        show formatSentence (ps.1 ++ ps.2) = some vs
        show mapFields ((ps.1 ++ ps.2).drop 4) = some vs
        rw [show (4 : Nat) = ps.1.length from (hh ps (by simp)).symm, List.drop_left]
        exact mapFields_of_forall₂ _ _ h1
      simp only [List.map_cons, formatgsvlist, hf,
        ih _ htail (fun q hq => hh q (by simp [hq]))]
      rfl

/-- C9: on a satellite-view report whose sentences each carry four header
fields and numeric-or-empty data fields, `formatgsvlist` flattens all data
fields, turning every empty field into 0, and `makesatdict` builds one
record per satellite identifier, so satellites with missing fields are
recorded with zeros rather than dropped from the record count. -/
theorem formatgsv_zero_subst_records
    (sents : List (List String × List String)) (valss : List (List Int))
    (recs : List (Int × Int × Int × Int))
    (hh : ∀ ps ∈ sents, ps.1.length = 4)
    (hv : List.Forall₂ (fun ps vs =>
        List.Forall₂ (fun f v => fieldVal f = some v) ps.2 vs) sents valss)
    (hr : valss.flatten = recsFlat recs)
    (hdist : recs.Pairwise (fun a b => a.1 ≠ b.1)) :
    fieldVal "" = some 0
    ∧ formatgsvlist (sents.map (fun ps => some (ps.1 ++ ps.2))) = some (recsFlat recs)
    ∧ ∃ d, makesatdict (recsFlat recs) = some d
        ∧ d.length = recs.length
        ∧ ∀ r ∈ recs, dictLookup r.1 d = some [r.2.1, r.2.2.1, r.2.2.2] := by
  refine ⟨rfl, ?_, insFold [] recs, ?_, ?_, ?_⟩
  · rw [formatgsvlist_forall₂ sents valss hv hh, hr]
  · rw [makesatdict, makesatGo_recsFlat]
  · have := insFold_length recs [] hdist (fun r _ => rfl)
    simpa using this
  · exact dictLookup_insFold_mem recs [] hdist

/-- A concrete three-sentence report; the third sentence has truncated
trailing fields (empty strings). -/
def sampleSents : List (List String × List String) :=
  [(["GSV", "3", "1", "04"], ["01", "80", "283", "20"]),
   (["GSV", "3", "2", "04"], ["14", "35", "055", "15"]),
   (["GSV", "3", "3", "04"], ["36", "", "", ""])]

/-- The satellite tuples of the sample report, empties as zeros. -/
def sampleRecs : List (Int × Int × Int × Int) :=
  [(1, 80, 283, 20), (14, 35, 55, 15), (36, 0, 0, 0)]

/-- C9 witness: the sample report flattens with zeros for the truncated
fields and yields one record per satellite. -/
theorem formatgsv_zero_subst_records_witness :
    fieldVal "" = some 0
    ∧ formatgsvlist (sampleSents.map (fun ps => some (ps.1 ++ ps.2))) = some (recsFlat sampleRecs)
    ∧ ∃ d, makesatdict (recsFlat sampleRecs) = some d
        ∧ d.length = sampleRecs.length
        ∧ ∀ r ∈ sampleRecs, dictLookup r.1 d = some [r.2.1, r.2.2.1, r.2.2.2] :=
  formatgsv_zero_subst_records sampleSents [[1, 80, 283, 20], [14, 35, 55, 15], [36, 0, 0, 0]]
    sampleRecs (by decide) (by decide) (by decide) (by decide)

/-! ### Deterministic rendering of the mothers diagram (C10) -/

/-- C10: on a `chosenfour` containing all four directions, `preparemothers`
renders, for each attribute row, one glyph pair per direction in the fixed
column order West, North, East, South, where `inttodot` yields two marks
for an even value (zero included) and one mark plus one space for an odd
value; equal inputs give byte-identical output. -/
theorem preparemothers_renders_dots
    (cf : List (PyVal × List PyVal))
    (w0 w1 w2 w3 w4 n0 n1 n2 n3 n4 e0 e1 e2 e3 e4 s0 s1 s2 s3 s4 : Int)
    (hw : dictLookup (PyVal.str "West") cf =
      some [PyVal.int w0, PyVal.int w1, PyVal.int w2, PyVal.int w3, PyVal.int w4])
    (hn : dictLookup (PyVal.str "North") cf =
      some [PyVal.int n0, PyVal.int n1, PyVal.int n2, PyVal.int n3, PyVal.int n4])
    (he : dictLookup (PyVal.str "East") cf =
      some [PyVal.int e0, PyVal.int e1, PyVal.int e2, PyVal.int e3, PyVal.int e4])
    (hs : dictLookup (PyVal.str "South") cf =
      some [PyVal.int s0, PyVal.int s1, PyVal.int s2, PyVal.int s3, PyVal.int s4]) :
    preparemothers cf =
      some ("       Earth    Water    Air     Fire\n        IV       III     II       I\n"
        ++ ("head" ++ spacer ++ inttodot w0 ++ spacer ++ inttodot n0 ++ spacer
            ++ inttodot e0 ++ spacer ++ inttodot s0 ++ spacer) ++ "\n"
        ++ ("neck" ++ spacer ++ inttodot w1 ++ spacer ++ inttodot n1 ++ spacer
            ++ inttodot e1 ++ spacer ++ inttodot s1 ++ spacer) ++ "\n"
        ++ ("body" ++ spacer ++ inttodot w2 ++ spacer ++ inttodot n2 ++ spacer
            ++ inttodot e2 ++ spacer ++ inttodot s2 ++ spacer) ++ "\n"
        ++ ("feet" ++ spacer ++ inttodot w3 ++ spacer ++ inttodot n3 ++ spacer
            ++ inttodot e3 ++ spacer ++ inttodot s3 ++ spacer) ++ "\n"
        ++ "       West     North    East    South")
    ∧ (∀ v : Int, v % 2 = 0 → inttodot v = "**")
    ∧ (∀ v : Int, v % 2 ≠ 0 → inttodot v = "* ")
    ∧ (∀ cf2 : List (PyVal × List PyVal), cf2 = cf → preparemothers cf2 = preparemothers cf) := by
  refine ⟨?_, ?_, ?_, ?_⟩
  · simp only [preparemothers, mothersLoop, hw, hn, he, hs, inttodotP, List.get?]
  · intro v hv
    simp [inttodot, hv]
  · intro v hv
    simp [inttodot, hv]
  · intro cf2 h2
    rw [h2]

/-- A concrete `chosenfour` with all four directions present. -/
def sampleChosen : List (PyVal × List PyVal) :=
  [(PyVal.str "West", [PyVal.int 1, PyVal.int 5, PyVal.int 260, PyVal.int 25, PyVal.int 10]),
   (PyVal.str "North", [PyVal.int 2, PyVal.int 10, PyVal.int 10, PyVal.int 20, PyVal.int 10]),
   (PyVal.str "East", [PyVal.int 3, PyVal.int 15, PyVal.int 100, PyVal.int 15, PyVal.int 10]),
   (PyVal.str "South", [PyVal.int 4, PyVal.int 20, PyVal.int 190, PyVal.int 30, PyVal.int 10])]

/-- C10 witness: rendering the sample `chosenfour`. -/
theorem preparemothers_renders_dots_witness :
    preparemothers sampleChosen =
      some ("       Earth    Water    Air     Fire\n        IV       III     II       I\n"
        ++ ("head" ++ spacer ++ inttodot 1 ++ spacer ++ inttodot 2 ++ spacer
            ++ inttodot 3 ++ spacer ++ inttodot 4 ++ spacer) ++ "\n"
        ++ ("neck" ++ spacer ++ inttodot 5 ++ spacer ++ inttodot 10 ++ spacer
            ++ inttodot 15 ++ spacer ++ inttodot 20 ++ spacer) ++ "\n"
        ++ ("body" ++ spacer ++ inttodot 260 ++ spacer ++ inttodot 10 ++ spacer
            ++ inttodot 100 ++ spacer ++ inttodot 190 ++ spacer) ++ "\n"
        ++ ("feet" ++ spacer ++ inttodot 25 ++ spacer ++ inttodot 20 ++ spacer
            ++ inttodot 15 ++ spacer ++ inttodot 30 ++ spacer) ++ "\n"
        ++ "       West     North    East    South")
    ∧ (∀ v : Int, v % 2 = 0 → inttodot v = "**")
    ∧ (∀ v : Int, v % 2 ≠ 0 → inttodot v = "* ")
    ∧ (∀ cf2 : List (PyVal × List PyVal), cf2 = sampleChosen →
        preparemothers cf2 = preparemothers sampleChosen) :=
  preparemothers_renders_dots sampleChosen 1 5 260 25 10 2 10 10 20 10 3 15 100 15 10
    4 20 190 30 10 (by decide) (by decide) (by decide) (by decide)

end Gpsgeomancy
